import Mathlib

/-!
Verification of the PDB pickle → PostgreSQL → pickle pipeline
(`01_pdb_pkltopsql_pipeline_v02.py`, `02_pdb_checker_compare_two_pkl_files_v01.py`,
`03_pdb_filter_geneid_transcriptid_v01.py`).

Modelling conventions:
* Python values reachable by the pipeline are the inductive `Value`
  (None, bool, int, str, bytes, list, dict with string keys in insertion order).
* A protein record (a Python dict) is an association list `Record`;
  `lookupKV` models `d[k]` / `d.get(k)` returning the first binding.
* The PostgreSQL table is a list of `Row`s in insertion order; `SELECT ...
  ORDER BY protein_index` is an insertion sort on `protein_index`.
* `json.dumps` of a JSON-safe value followed by JSONB storage and psycopg2's
  decode on read is modelled as the identity on the JSON-safe value
  (the value stored for a dict/list column is `make_json_safe value`).
* SHA-256 is modelled symbolically: a digest is the sequence of `update`
  calls (`Chunk`s) fed to the hasher; digest equality is chunk-list equality.
  `pickle.dumps v` and `str v` appear as the symbolic chunks `cpickle v`
  and `cpystr v`.
* A Python exception (KeyError, TypeError, NOT NULL violation, assertion)
  aborts the run; fallible operations return `Option` and an abort is `none`.
-/

namespace PDB

/-- A Python value reachable by this pipeline: `None`, `bool`, `int`, `str`,
`bytes` (as a list of byte values), `list`, or a string-keyed `dict`
(an insertion-ordered association list). -/
inductive Value where
  | vnull  : Value
  | vbool  : Bool → Value
  | vint   : Int → Value
  | vstr   : String → Value
  | vbytes : List Nat → Value
  | vlist  : List Value → Value
  | vdict  : List (String × Value) → Value
  deriving Repr

mutual

/-- Decidable equality test on `Value` (Python `==` restricted to structural
equality on this value universe). -/
def Value.beq : Value → Value → Bool
  | .vnull, .vnull => true
  | .vbool a, .vbool b => a == b
  | .vint a, .vint b => a == b
  | .vstr a, .vstr b => a == b
  | .vbytes a, .vbytes b => a == b
  | .vlist a, .vlist b => Value.beqList a b
  | .vdict a, .vdict b => Value.beqKVs a b
  | _, _ => false

def Value.beqList : List Value → List Value → Bool
  | [], [] => true
  | a :: as', b :: bs' => Value.beq a b && Value.beqList as' bs'
  | _, _ => false

def Value.beqKVs : List (String × Value) → List (String × Value) → Bool
  | [], [] => true
  | a :: as', b :: bs' => (a.1 == b.1 && Value.beq a.2 b.2) && Value.beqKVs as' bs'
  | _, _ => false

end

mutual

theorem Value.beq_iff : ∀ a b : Value, Value.beq a b = true ↔ a = b
  | .vnull, b => by cases b <;> simp [Value.beq]
  | .vbool x, b => by cases b <;> simp [Value.beq]
  | .vint x, b => by cases b <;> simp [Value.beq]
  | .vstr x, b => by cases b <;> simp [Value.beq]
  | .vbytes x, b => by cases b <;> simp [Value.beq]
  | .vlist xs, b => by
      cases b <;> simp [Value.beq]
      exact Value.beqList_iff xs _
  | .vdict xs, b => by
      cases b <;> simp [Value.beq]
      exact Value.beqKVs_iff xs _

theorem Value.beqList_iff : ∀ a b : List Value, Value.beqList a b = true ↔ a = b
  | [], b => by cases b <;> simp [Value.beqList]
  | x :: xs, b => by
      cases b with
      | nil => simp [Value.beqList]
      | cons y ys =>
          simp [Value.beqList, Bool.and_eq_true, Value.beq_iff x y,
            Value.beqList_iff xs ys]

theorem Value.beqKVs_iff : ∀ a b : List (String × Value),
    Value.beqKVs a b = true ↔ a = b
  | [], b => by cases b <;> simp [Value.beqKVs]
  | x :: xs, b => by
      cases b with
      | nil => simp [Value.beqKVs]
      | cons y ys =>
          simp [Value.beqKVs, Bool.and_eq_true, Value.beq_iff x.2 y.2,
            Value.beqKVs_iff xs ys, Prod.ext_iff]

end

instance : DecidableEq Value := fun a b =>
  decidable_of_iff (Value.beq a b = true) (Value.beq_iff a b)

/-- A protein record: a Python dict with string keys, in insertion order. -/
abbrev Record := List (String × Value)

/-- Lookup `kvs[k]` / `kvs.get(k)` on a Python dict modelled as an association list:
the first binding for `k`, if any. -/
def lookupKV (kvs : List (String × Value)) (k : String) : Option Value :=
  (kvs.find? (fun kv => kv.1 == k)).map (fun kv => kv.2)

/-- Lookup `kvs.get(k, d)`: lookup with a default for a missing key. -/
def getDKV (kvs : List (String × Value)) (k : String) (d : Value) : Value :=
  (lookupKV kvs k).getD d

/-- Python truthiness of a `Value` (`bool(v)`). -/
def Value.truthy : Value → Bool
  | .vnull => false
  | .vbool b => b
  | .vint n => n != 0
  | .vstr s => s != ""
  | .vbytes bs => !bs.isEmpty
  | .vlist xs => !xs.isEmpty
  | .vdict kvs => !kvs.isEmpty

/-- The string in `v` when `v` is a `str`, otherwise failure (`.encode()` on a non-string
raises). -/
def asStr : Value → Option String
  | .vstr s => some s
  | _ => none

/-- The standard base64 alphabet. -/
def b64Alphabet : List Char :=
  "ABCDEFGHIJKLMNOPQRSTUVWXYZabcdefghijklmnopqrstuvwxyz0123456789+/".toList

/-- The base64 digit character for a 6-bit group. -/
def b64Char (n : Nat) : Char := b64Alphabet.getD n '='

/-- Base64-encode a byte list, three input bytes per four output characters,
padding with `=` (the encoding performed by `base64.b64encode`). -/
def b64EncodeGroups : List Nat → List Char
  | [] => []
  | [b0] => [b64Char (b0 / 4), b64Char (b0 % 4 * 16), '=', '=']
  | [b0, b1] => [b64Char (b0 / 4), b64Char (b0 % 4 * 16 + b1 / 16),
      b64Char (b1 % 16 * 4), '=']
  | b0 :: b1 :: b2 :: rest =>
      b64Char (b0 / 4) :: b64Char (b0 % 4 * 16 + b1 / 16) ::
      b64Char (b1 % 16 * 4 + b2 / 64) :: b64Char (b2 % 64) ::
      b64EncodeGroups rest

/-- Model of `base64.b64encode(bs).decode("ascii")`. -/
def b64encode (bs : List Nat) : String := String.mk (b64EncodeGroups bs)

mutual

/-- Model of `make_json_safe` from `01_pdb_pkltopsql_pipeline_v02.py`: recursively
replace every `bytes` value by the tagged marker dict
`\x7b"__type__": "bytes", "encoding": "base64", "data": <base64 text>\x7d`,
mapping over dicts and lists and leaving every other value unchanged. -/
def make_json_safe : Value → Value
  | .vbytes bs =>
      .vdict [("__type__", .vstr "bytes"), ("encoding", .vstr "base64"),
              ("data", .vstr (b64encode bs))]
  | .vdict kvs => .vdict (makeJsonSafeKVs kvs)
  | .vlist xs => .vlist (makeJsonSafeList xs)
  | v => v

def makeJsonSafeList : List Value → List Value
  | [] => []
  | x :: xs => make_json_safe x :: makeJsonSafeList xs

def makeJsonSafeKVs : List (String × Value) → List (String × Value)
  | [] => []
  | kv :: kvs => (kv.1, make_json_safe kv.2) :: makeJsonSafeKVs kvs

end

mutual

/-- A value contains no `bytes` anywhere (so `make_json_safe` leaves it
untouched). -/
def ByteFree : Value → Bool
  | .vbytes _ => false
  | .vlist xs => ByteFreeList xs
  | .vdict kvs => ByteFreeKVs kvs
  | _ => true

def ByteFreeList : List Value → Bool
  | [] => true
  | x :: xs => ByteFree x && ByteFreeList xs

def ByteFreeKVs : List (String × Value) → Bool
  | [] => true
  | kv :: kvs => ByteFree kv.2 && ByteFreeKVs kvs

end

mutual

theorem make_json_safe_of_byteFree : ∀ v : Value, ByteFree v = true →
    make_json_safe v = v
  | .vnull, _ => rfl
  | .vbool _, _ => rfl
  | .vint _, _ => rfl
  | .vstr _, _ => rfl
  | .vbytes _, h => by simp [ByteFree] at h
  | .vlist xs, h => by
      simp only [make_json_safe, Value.vlist.injEq]
      exact makeJsonSafeList_of_byteFree xs (by simpa [ByteFree] using h)
  | .vdict kvs, h => by
      simp only [make_json_safe, Value.vdict.injEq]
      exact makeJsonSafeKVs_of_byteFree kvs (by simpa [ByteFree] using h)

theorem makeJsonSafeList_of_byteFree : ∀ xs : List Value,
    ByteFreeList xs = true → makeJsonSafeList xs = xs
  | [], _ => rfl
  | x :: xs, h => by
      simp only [ByteFreeList, Bool.and_eq_true] at h
      simp only [makeJsonSafeList, List.cons.injEq]
      exact ⟨make_json_safe_of_byteFree x h.1, makeJsonSafeList_of_byteFree xs h.2⟩

theorem makeJsonSafeKVs_of_byteFree : ∀ kvs : List (String × Value),
    ByteFreeKVs kvs = true → makeJsonSafeKVs kvs = kvs
  | [], _ => rfl
  | kv :: kvs, h => by
      simp only [ByteFreeKVs, Bool.and_eq_true] at h
      simp only [makeJsonSafeKVs, List.cons.injEq]
      exact ⟨by rw [make_json_safe_of_byteFree kv.2 h.1],
        makeJsonSafeKVs_of_byteFree kvs h.2⟩

end

/-- One PDB structure file: an identifier string and an opaque byte payload
(the dict `\x7b"pdb_id": ..., "content": ...\x7d` in the source data). -/
structure PdbFile where
  pdb_id : String
  content : List Nat
  deriving DecidableEq, Repr

/-- Extract one PDB dict: `p["pdb_id"]` must be a string (it is `.encode()`d
and adapted to a `TEXT[]` element) and `p["content"]` must be bytes (it is
wrapped in `psycopg2.Binary` / fed to `hashlib`); anything else raises. -/
def getPdbFile (v : Value) : Option PdbFile :=
  match v with
  | .vdict kvs =>
      match lookupKV kvs "pdb_id", lookupKV kvs "content" with
      | some (.vstr s), some (.vbytes b) => some ⟨s, b⟩
      | _, _ => none
  | _ => none

/-- Extract the `pdb_files` value: it must be a list of well-formed PDB
dicts; iterating anything else raises. -/
def getPdbs (v : Value) : Option (List PdbFile) :=
  match v with
  | .vlist xs => xs.mapM getPdbFile
  | _ => none

namespace Pipeline

/-- Model of `infer_pg_type` from `01_pdb_pkltopsql_pipeline_v02.py`: map a column
name and the sample value from the first record to a PostgreSQL type. -/
def infer_pg_type (key : String) (value : Value) : String :=
  if key = "protein_index" then "INTEGER NOT NULL"
  else if key = "pdb_ids" then "TEXT[]"
  else if key = "pdb_files" then "BYTEA[]"
  else
    match value with
    | .vbool _ => "BOOLEAN"
    | .vdict _ => "JSONB"
    | .vlist _ => "JSONB"
    | _ => "VARCHAR(400)"

/-- The value a non-PDB column holds after the round trip through the store:
a dict or list is serialized as `json.dumps (make_json_safe value)` into a
JSONB column, which psycopg2 decodes back to exactly `make_json_safe value`
on read; every other value is passed through unchanged. -/
def storedVal (v : Value) : Value :=
  match v with
  | .vdict _ => make_json_safe v
  | .vlist _ => make_json_safe v
  | _ => v

/-- One row of the destination table: the synthesized `protein_index`,
the dynamically detected scalar/JSONB columns, and the two parallel
PDB arrays (`TEXT[]` and `BYTEA[]`). -/
structure Row where
  protein_index : Nat
  fields : List (String × Value)
  pdb_ids : List String
  pdb_files : List (List Nat)
  deriving DecidableEq, Repr

/-- Read a named (non-PDB) column of a row; a column the table does not
have reads as SQL NULL. -/
def Row.getField (r : Row) (k : String) : Value :=
  getDKV r.fields k .vnull

/-- The value pair the `(gene_id, transcript_id)` primary key holds for a
row. -/
def rowKey (r : Row) : Value × Value :=
  (r.getField "gene_id", r.getField "transcript_id")

/-- The `row_dict` built for one record in `insert_proteins_with_pdbs`
(lines 195-211): the enumeration index as `protein_index`; for every other
detected column the record's value (`entry.get(key)`, `None` for a missing
key), JSON-encoded via `make_json_safe` when it is a dict or list; and the
`pdb_files` list split into the parallel `pdb_ids` / `pdb_files` arrays.
Fails (`none`) when the `pdb_files` value is not a list of well-formed
PDB dicts. -/
def mkRow (other_columns : List String) (idx : Nat) (entry : Record) :
    Option Row := do
  let pdbs ← getPdbs (getDKV entry "pdb_files" (.vlist []))
  some { protein_index := idx,
         fields := other_columns.map (fun k => (k, storedVal (getDKV entry k .vnull))),
         pdb_ids := pdbs.map (fun p => p.pdb_id),
         pdb_files := pdbs.map (fun p => p.content) }

/-- Execute one
`INSERT ... ON CONFLICT (gene_id, transcript_id) DO NOTHING` against the
table state: a NULL in a `NOT NULL` key column raises (`none`); a row whose
key already exists is silently skipped; otherwise the row is appended. -/
def insertOne (tbl : List Row) (r : Row) : Option (List Row) :=
  if (rowKey r).1 = Value.vnull ∨ (rowKey r).2 = Value.vnull then none
  else if tbl.any (fun x => decide (rowKey x = rowKey r)) then some tbl
  else some (tbl ++ [r])

/-- The `for idx, entry in enumerate(data)` insert loop: build each row and
execute its insert; any exception aborts the run (the commit only happens
after the loop, so an abort leaves the table as it was). -/
def insertLoop (other_columns : List String) (tbl : List Row) :
    List Record → Nat → Option (List Row)
  | [], _ => some tbl
  | e :: rest, idx => do
      let row ← mkRow other_columns idx e
      let tbl2 ← insertOne tbl row
      insertLoop other_columns tbl2 rest (idx + 1)

/-- Model of `insert_proteins_with_pdbs` from `01_pdb_pkltopsql_pipeline_v02.py`:
run the insert loop from index 0 and report
`Inserted \x7blen(data)\x7d proteins` — the reported count (modelled as the
second component of the result) is the length of the input, regardless of
how many inserts were skipped by `ON CONFLICT DO NOTHING`. -/
def insert_proteins_with_pdbs (other_columns : List String) (tbl : List Row)
    (data : List Record) : Option (List Row × Nat) :=
  (insertLoop other_columns tbl data 0).map (fun t => (t, data.length))

/-- Insert a row into a list already sorted by `protein_index`
(ascending, stable). -/
def insertRowSorted (r : Row) : List Row → List Row
  | [] => [r]
  | x :: xs =>
      if x.protein_index ≤ r.protein_index then x :: insertRowSorted r xs
      else r :: x :: xs

/-- Model of `SELECT * FROM ... ORDER BY protein_index`: a stable sort of the table
rows by ascending `protein_index`. -/
def sortByIndex : List Row → List Row
  | [] => []
  | r :: rs => insertRowSorted r (sortByIndex rs)

/-- The body of the export loop in `export_table_to_pkl` (lines 271-293):
rebuild one record by walking the original key order; the `pdb_files` field
re-zips the `pdb_ids` and `pdb_files` arrays into a list of
`\x7b"pdb_id": ..., "content": ...\x7d` dicts (`zip` truncates to the
shorter array), every other field is the column value as decoded by
psycopg2. -/
def rowToEntry (original_key_order : List String) (row : Row) : Record :=
  original_key_order.map (fun key =>
    if key = "pdb_files" then
      ("pdb_files", Value.vlist ((row.pdb_ids.zip row.pdb_files).map
        (fun pc => Value.vdict
          [("pdb_id", Value.vstr pc.1), ("content", Value.vbytes pc.2)])))
    else (key, row.getField key))

/-- Model of `export_table_to_pkl` from `01_pdb_pkltopsql_pipeline_v02.py`: read all
rows ordered by `protein_index` and rebuild each record in the original key
order (the written pickle is the returned list). -/
def export_table_to_pkl (tbl : List Row) (original_key_order : List String) :
    List Record :=
  (sortByIndex tbl).map (rowToEntry original_key_order)

end Pipeline

/-- One `h.update(...)` call fed to the SHA-256 hasher, kept symbolic:
`cstr s` is `s.encode()`, `cbytes bs` raw bytes, `cpickle v` is
`pickle.dumps(v)` and `cpystr v` is `str(v).encode()`. The digest of a
record is modelled as the list of chunks fed to the hasher. -/
inductive Chunk where
  | cstr : String → Chunk
  | cbytes : List Nat → Chunk
  | cpickle : Value → Chunk
  | cpystr : Value → Chunk
  deriving DecidableEq, Repr

/-- Model of `(v or "").encode()`: a falsy value yields the empty string, a truthy
string yields itself, any other truthy value raises on `.encode()`. -/
def seqOrEmpty (v : Value) : Option String :=
  if v.truthy then asStr v else some ""

namespace Pipeline

/-- Model of `hash_protein` from `01_pdb_pkltopsql_pipeline_v02.py`: the SHA-256
digest (as its symbolic chunk stream) of `gene_id`, `transcript_id`,
`sequence or ""`, `pickle.dumps(exons)`, `str(protein_coding)`, `str(nmd)`
and every PDB's id and content; `exons`, `protein_coding`, `nmd` and
`pdb_files` are read with `.get` defaults (`[]`, `False`, `False`, `[]`),
the first three fields are required. -/
def hash_protein (p : Record) : Option (List Chunk) := do
  let g ← (lookupKV p "gene_id").bind asStr
  let t ← (lookupKV p "transcript_id").bind asStr
  let sv ← lookupKV p "sequence"
  let s ← seqOrEmpty sv
  let pdbs ← getPdbs (getDKV p "pdb_files" (.vlist []))
  some ([.cstr g, .cstr t, .cstr s,
         .cpickle (getDKV p "exons" (.vlist [])),
         .cpystr (getDKV p "protein_coding" (.vbool false)),
         .cpystr (getDKV p "nmd" (.vbool false))] ++
        pdbs.flatMap (fun f => [.cstr f.pdb_id, .cbytes f.content]))

/-- Model of `proof_compare_pkl` from `01_pdb_pkltopsql_pipeline_v02.py` after
unpickling both files: `False` when the collections have different lengths,
otherwise `True` iff the per-position digests agree pairwise. -/
def proof_compare_pkl (data1 data2 : List Record) : Bool :=
  if data1.length = data2.length then
    (data1.zip data2).all (fun pq => decide (hash_protein pq.1 = hash_protein pq.2))
  else false

end Pipeline

namespace Checker

/-- Model of `hash_protein` from `02_pdb_checker_compare_two_pkl_files_v01.py`: the
same digest as the pipeline's, except that `exons`, `protein_coding`,
`nmd` and `pdb_files` are required subscripts (`protein[...]`), raising
on a missing key instead of using a default. -/
def hash_protein (p : Record) : Option (List Chunk) := do
  let g ← (lookupKV p "gene_id").bind asStr
  let t ← (lookupKV p "transcript_id").bind asStr
  let sv ← lookupKV p "sequence"
  let s ← seqOrEmpty sv
  let ex ← lookupKV p "exons"
  let pc ← lookupKV p "protein_coding"
  let nm ← lookupKV p "nmd"
  let pv ← lookupKV p "pdb_files"
  let pdbs ← getPdbs pv
  some ([.cstr g, .cstr t, .cstr s, .cpickle ex, .cpystr pc, .cpystr nm] ++
        pdbs.flatMap (fun f => [.cstr f.pdb_id, .cbytes f.content]))

/-- Model of `proof_compare_pkl` from `02_pdb_checker_compare_two_pkl_files_v01.py`
after unpickling both files: `False` on a length mismatch, otherwise `True`
iff the per-position digests agree pairwise. -/
def proof_compare_pkl (data1 data2 : List Record) : Bool :=
  if data1.length = data2.length then
    (data1.zip data2).all (fun pq => decide (hash_protein pq.1 = hash_protein pq.2))
  else false

/-- A Python value usable as a dict-key component (a tuple element must be
hashable; lists and dicts are not). -/
def hashableVal : Value → Bool
  | .vlist _ => false
  | .vdict _ => false
  | _ => true

/-- The key map entry list: `(gene_id, transcript_id)` pairs to records,
in first-insertion order, later records overwriting earlier ones. -/
abbrev KeyMap := List ((Value × Value) × Record)

/-- Insert into a Python dict: overwrite in place when the key exists,
append otherwise. -/
def upsert (m : KeyMap) (k : Value × Value) (p : Record) : KeyMap :=
  if m.any (fun e => decide (e.1 = k)) then
    m.map (fun e => if e.1 = k then (k, p) else e)
  else m ++ [(k, p)]

/-- Model of `index_by_key` from `02_pdb_checker_compare_two_pkl_files_v01.py`:
build the dict keyed by `(p["gene_id"], p["transcript_id"])`; a record
missing either key, or with an unhashable key component, raises. Only the
last record for each key is kept. -/
def index_by_key (data : List Record) : Option KeyMap :=
  data.foldlM (fun m p => do
    let g ← lookupKV p "gene_id"
    let t ← lookupKV p "transcript_id"
    if hashableVal g && hashableVal t then some (upsert m (g, t) p) else none)
    []

/-- Subscript `m[k]` on the key map: raises (`none`) when absent. -/
def mapGet (m : KeyMap) (k : Value × Value) : Option Record :=
  (m.find? (fun e => decide (e.1 = k))).map (fun e => e.2)

/-- Model of `set(map1.keys()) == set(map2.keys())`. -/
def sameKeySet (m1 m2 : KeyMap) : Bool :=
  m1.all (fun e => m2.any (fun f => decide (f.1 = e.1))) &&
  m2.all (fun e => m1.any (fun f => decide (f.1 = e.1)))

/-- Subscript `p[k]` where `p` must be a dict. -/
def getItem (v : Value) (k : String) : Option Value :=
  match v with
  | .vdict kvs => lookupKV kvs k
  | _ => none

/-- Compare one named field of two records by Python `==`; a missing key
raises. -/
def compareField (inp out : Record) (f : String) : Option Bool := do
  let a ← lookupKV inp f
  let b ← lookupKV out f
  some (decide (a = b))

/-- The `for field in ["sequence", "exons", "protein_coding", "nmd"]`
loop: stop with `False` at the first differing field. -/
def compareFieldList (inp out : Record) : List String → Option Bool
  | [] => some true
  | f :: fs => do
      let b ← compareField inp out f
      if b then compareFieldList inp out fs else some false

/-- The value when it is a list (`len(...)` / iteration need one). -/
def asVList : Value → Option (List Value)
  | .vlist xs => some xs
  | _ => none

/-- The `for i, (p1, p2) in enumerate(zip(...))` PDB loop: compare
`pdb_id`s then `content`s pairwise, stopping at the first mismatch;
`zip` stops at the shorter list. -/
def comparePdbLists : List Value → List Value → Option Bool
  | p1 :: r1, p2 :: r2 => do
      let i1 ← getItem p1 "pdb_id"
      let i2 ← getItem p2 "pdb_id"
      if i1 = i2 then do
        let c1 ← getItem p1 "content"
        let c2 ← getItem p2 "content"
        if c1 = c2 then comparePdbLists r1 r2 else some false
      else some false
  | _, _ => some true

/-- The per-key comparison body shared by `compare_proteins` and
`compare_pkl_files`: the four scalar fields, then the PDB list lengths,
then the PDB pairs. -/
def compareEntry (inp out : Record) : Option Bool := do
  let b ← compareFieldList inp out ["sequence", "exons", "protein_coding", "nmd"]
  if b then do
    let pv1 ← lookupKV inp "pdb_files"
    let l1 ← asVList pv1
    let pv2 ← lookupKV out "pdb_files"
    let l2 ← asVList pv2
    if l1.length = l2.length then comparePdbLists l1 l2 else some false
  else some false

/-- The `for key in in_map` loop: look each key up in the second map and
run the per-key comparison, stopping at the first failure. -/
def compareMapLoop (m2 : KeyMap) : KeyMap → Option Bool
  | [] => some true
  | (k, inp) :: rest => do
      let out ← mapGet m2 k
      let b ← compareEntry inp out
      if b then compareMapLoop m2 rest else some false

/-- Model of `compare_proteins` from `02_pdb_checker_compare_two_pkl_files_v01.py`:
index both collections by `(gene_id, transcript_id)`, require equal key
sets, then compare the indexed records key by key. -/
def compare_proteins (input_data output_data : List Record) : Option Bool := do
  let m1 ← index_by_key input_data
  let m2 ← index_by_key output_data
  if sameKeySet m1 m2 then compareMapLoop m2 m1 else some false

/-- Model of `compare_pkl_files` from `02_pdb_checker_compare_two_pkl_files_v01.py`
after unpickling: the same key-set check and per-key comparisons as
`compare_proteins` (the source duplicates the loop body inline). -/
def compare_pkl_files (data1 data2 : List Record) : Option Bool := do
  let m1 ← index_by_key data1
  let m2 ← index_by_key data2
  if sameKeySet m1 m2 then compareMapLoop m2 m1 else some false

end Checker

namespace Filter

/-- Model of `x or []` (used for the `exons` column in `rows_to_pkl`). -/
def pyOrEmptyList (v : Value) : Value :=
  if v.truthy then v else .vlist []

/-- Model of `rows_to_pkl` from `03_pdb_filter_geneid_transcriptid_v01.py`: for each
row, assert that the `pdb_ids` and `pdb_files` arrays have equal length
(an `AssertionError` aborts the run), then rebuild the record from the
detected columns (`exons` null-coerced to `[]`) with the re-zipped
`pdb_files` list appended last. -/
def rows_to_pkl (rows : List Pipeline.Row) (other_columns : List String) :
    Option (List Record) :=
  rows.mapM (fun row =>
    if row.pdb_ids.length = row.pdb_files.length then
      some ((other_columns.map (fun col =>
          if col = "exons" then (col, pyOrEmptyList (row.getField col))
          else (col, row.getField col))) ++
        [("pdb_files", Value.vlist ((row.pdb_ids.zip row.pdb_files).map
          (fun pc => Value.vdict
            [("pdb_id", Value.vstr pc.1), ("content", Value.vbytes pc.2)])))])
    else none)

end Filter

/-! ### Derived forms and helper lemmas -/

/-- The dict a reconstructed PDB entry takes on export:
`\x7b"pdb_id": p.pdb_id, "content": p.content\x7d`. -/
def pdbEntryVal (p : PdbFile) : Value :=
  .vdict [("pdb_id", .vstr p.pdb_id), ("content", .vbytes p.content)]

/-- The re-zipped `pdb_files` value of a row. -/
def rezipVal (row : Pipeline.Row) : Value :=
  .vlist ((row.pdb_ids.zip row.pdb_files).map
    (fun pc => .vdict [("pdb_id", .vstr pc.1), ("content", .vbytes pc.2)]))

/-- The value the exported record holds at key `k`. -/
def entryVal (row : Pipeline.Row) (k : String) : Value :=
  if k = "pdb_files" then rezipVal row else row.getField k

theorem lookupKV_keyed_map (g : String → Value) (ks : List String) (k : String)
    (h : k ∈ ks) : lookupKV (ks.map (fun x => (x, g x))) k = some (g k) := by
  induction ks with
  | nil => cases h
  | cons a as ih =>
      by_cases hk : a = k
      · subst hk
        simp [lookupKV, List.find?]
      · have hbeq : ¬ ((fun kv : String × Value => kv.1 == k) (a, g a) = true) := by
          simpa using hk
        rcases List.mem_cons.mp h with h1 | h2
        · exact absurd h1.symm hk
        · unfold lookupKV at ih ⊢
          rw [List.map_cons,
            List.find?_cons_of_neg (p := fun kv : String × Value => kv.1 == k) _ hbeq]
          exact ih h2

theorem rowToEntry_eq_keyed_map (ko : List String) (row : Pipeline.Row) :
    Pipeline.rowToEntry ko row = ko.map (fun k => (k, entryVal row k)) := by
  unfold Pipeline.rowToEntry
  apply List.map_congr_left
  intro k _
  by_cases hk : k = "pdb_files"
  · subst hk; simp [entryVal, rezipVal]
  · simp [entryVal, rezipVal, hk]

theorem lookupKV_rowToEntry (ko : List String) (row : Pipeline.Row)
    (k : String) (h : k ∈ ko) :
    lookupKV (Pipeline.rowToEntry ko row) k = some (entryVal row k) := by
  rw [rowToEntry_eq_keyed_map]
  exact lookupKV_keyed_map _ ko k h

theorem getPdbFile_pdbEntryVal (p : PdbFile) :
    getPdbFile (pdbEntryVal p) = some p := by
  simp [getPdbFile, pdbEntryVal, lookupKV, List.find?]

theorem getPdbs_canonical (l : List PdbFile) :
    getPdbs (.vlist (l.map pdbEntryVal)) = some l := by
  induction l with
  | nil => rfl
  | cons p ps ih =>
      simp only [getPdbs] at ih ⊢
      rw [List.map_cons, List.mapM_cons, getPdbFile_pdbEntryVal, ih]
      rfl

theorem storedVal_of_byteFree (v : Value) (h : ByteFree v = true) :
    Pipeline.storedVal v = v := by
  cases v with
  | vlist xs => exact make_json_safe_of_byteFree _ h
  | vdict kvs => exact make_json_safe_of_byteFree _ h
  | vnull => rfl
  | vbool b => rfl
  | vint n => rfl
  | vstr s => rfl
  | vbytes bs => rfl

/-- The record has key `k` bound to a string. -/
def isStrField (e : Record) (k : String) : Bool :=
  match lookupKV e k with
  | some (.vstr _) => true
  | _ => false

/-- The record has a `sequence` that `(x or "").encode()` accepts. -/
def seqField (e : Record) : Bool :=
  match lookupKV e "sequence" with
  | some sv => (seqOrEmpty sv).isSome
  | none => false

/-- The record has key `k` bound to a value containing no raw bytes. -/
def byteFreeField (e : Record) (k : String) : Bool :=
  match lookupKV e k with
  | some v => ByteFree v
  | none => false

/-- The record has a well-formed `pdb_files` list. -/
def pdbField (e : Record) : Bool :=
  match lookupKV e "pdb_files" with
  | some pv => (getPdbs pv).isSome
  | none => false

/-- The field names the fingerprint reads. -/
def hashFieldNames : List String :=
  ["gene_id", "transcript_id", "sequence", "exons", "protein_coding", "nmd",
   "pdb_files"]

/-- A record whose fingerprint-relevant fields are present, well-typed and
free of raw bytes outside `pdb_files` — the shape the pipeline's own input
data has, under which a field value survives the JSONB round trip. -/
def HashFieldsSafe (e : Record) : Bool :=
  isStrField e "gene_id" && isStrField e "transcript_id" && seqField e &&
  byteFreeField e "exons" && byteFreeField e "protein_coding" &&
  byteFreeField e "nmd" && pdbField e

theorem isStrField_spec (e : Record) (k : String) (h : isStrField e k = true) :
    ∃ s, lookupKV e k = some (.vstr s) := by
  unfold isStrField at h
  cases hv : lookupKV e k with
  | none => rw [hv] at h; cases h
  | some v =>
      rw [hv] at h
      cases v <;> simp_all

theorem seqField_spec (e : Record) (h : seqField e = true) :
    ∃ sv, lookupKV e "sequence" = some sv ∧ (seqOrEmpty sv).isSome := by
  unfold seqField at h
  cases hv : lookupKV e "sequence" with
  | none => rw [hv] at h; cases h
  | some v => rw [hv] at h; exact ⟨v, rfl, h⟩

theorem byteFreeField_spec (e : Record) (k : String)
    (h : byteFreeField e k = true) :
    ∃ v, lookupKV e k = some v ∧ ByteFree v = true := by
  unfold byteFreeField at h
  cases hv : lookupKV e k with
  | none => rw [hv] at h; cases h
  | some v => rw [hv] at h; exact ⟨v, rfl, h⟩

theorem pdbField_spec (e : Record) (h : pdbField e = true) :
    ∃ pv pdbs, lookupKV e "pdb_files" = some pv ∧ getPdbs pv = some pdbs := by
  unfold pdbField at h
  cases hv : lookupKV e "pdb_files" with
  | none => rw [hv] at h; cases h
  | some pv =>
      rw [hv] at h
      rcases Option.isSome_iff_exists.mp h with ⟨pdbs, hp⟩
      exact ⟨pv, pdbs, rfl, hp⟩

theorem storedVal_of_seqOrEmpty (v : Value) (h : (seqOrEmpty v).isSome) :
    Pipeline.storedVal v = v := by
  cases v with
  | vlist xs =>
      cases xs with
      | nil => exact make_json_safe_of_byteFree _ rfl
      | cons x xs' => simp [seqOrEmpty, Value.truthy, asStr, List.isEmpty] at h
  | vdict kvs =>
      cases kvs with
      | nil => exact make_json_safe_of_byteFree _ rfl
      | cons kv kvs' => simp [seqOrEmpty, Value.truthy, asStr, List.isEmpty] at h
  | vnull => rfl
  | vbool b => rfl
  | vint n => rfl
  | vstr s => rfl
  | vbytes bs => rfl

/-! ### Concrete example data used by witnesses and counterexamples -/

/-- A well-formed protein record with two PDB subrecords. -/
def exA : Record :=
  [("gene_id", .vstr "G1"), ("transcript_id", .vstr "T1"),
   ("sequence", .vstr "MKT"), ("exons", .vlist [.vint 1, .vint 2]),
   ("protein_coding", .vbool true), ("nmd", .vbool false),
   ("pdb_files", .vlist
      [.vdict [("pdb_id", .vstr "1ABC"), ("content", .vbytes [0, 1])],
       .vdict [("pdb_id", .vstr "1XYZ"), ("content", .vbytes [255])]])]

/-- A well-formed protein record with no PDB subrecords. -/
def exB : Record :=
  [("gene_id", .vstr "G1"), ("transcript_id", .vstr "T2"),
   ("sequence", .vstr "QQ"), ("exons", .vlist []),
   ("protein_coding", .vbool false), ("nmd", .vbool true),
   ("pdb_files", .vlist [])]

/-- Record `exA` with the same `(gene_id, transcript_id)` key but a different
sequence. -/
def exA2 : Record :=
  [("gene_id", .vstr "G1"), ("transcript_id", .vstr "T1"),
   ("sequence", .vstr "WWW"), ("exons", .vlist []),
   ("protein_coding", .vbool false), ("nmd", .vbool false),
   ("pdb_files", .vlist [])]

/-- The canonical key order of the example records. -/
def exKeyOrder : List String :=
  ["gene_id", "transcript_id", "sequence", "exons", "protein_coding", "nmd",
   "pdb_files"]

/-- The detected non-PDB columns of the example records
(`[k for k in first_entry.keys() if k != "pdb_files"]`). -/
def exCols : List String := exKeyOrder.filter (fun k => k ≠ "pdb_files")

/-- The PDB subrecords of `exA`. -/
def exApdbs : List PdbFile := [⟨"1ABC", [0, 1]⟩, ⟨"1XYZ", [255]⟩]

/-- The table row `exA` maps to at position 0. -/
def exArow : Pipeline.Row :=
  { protein_index := 0,
    fields := [("gene_id", .vstr "G1"), ("transcript_id", .vstr "T1"),
               ("sequence", .vstr "MKT"), ("exons", .vlist [.vint 1, .vint 2]),
               ("protein_coding", .vbool true), ("nmd", .vbool false)],
    pdb_ids := ["1ABC", "1XYZ"],
    pdb_files := [[0, 1], [255]] }

/-- A table row whose two PDB arrays have different lengths (a state the
pipeline itself never writes; it models external corruption of the
destination table). -/
def mismatchedRow : Pipeline.Row :=
  { protein_index := 0,
    fields := [("gene_id", .vstr "G1"), ("transcript_id", .vstr "T1")],
    pdb_ids := ["1ABC", "1XYZ"],
    pdb_files := [[7]] }

/-! ### Claim theorems -/

/-- C5: `infer_pg_type` gives the three fixed columns their fixed types
regardless of the sample value, and classifies every other column solely by
the sample value's shape: boolean values map to `BOOLEAN`, nested mappings
and sequences to `JSONB`, and everything else to `VARCHAR(400)`. -/
theorem claim_C5_infer_pg_type :
    (∀ v, Pipeline.infer_pg_type "protein_index" v = "INTEGER NOT NULL") ∧
    (∀ v, Pipeline.infer_pg_type "pdb_ids" v = "TEXT[]") ∧
    (∀ v, Pipeline.infer_pg_type "pdb_files" v = "BYTEA[]") ∧
    (∀ k, k ≠ "protein_index" → k ≠ "pdb_ids" → k ≠ "pdb_files" →
      (∀ b, Pipeline.infer_pg_type k (.vbool b) = "BOOLEAN") ∧
      (∀ kvs, Pipeline.infer_pg_type k (.vdict kvs) = "JSONB") ∧
      (∀ xs, Pipeline.infer_pg_type k (.vlist xs) = "JSONB") ∧
      (Pipeline.infer_pg_type k .vnull = "VARCHAR(400)") ∧
      (∀ s, Pipeline.infer_pg_type k (.vstr s) = "VARCHAR(400)") ∧
      (∀ n, Pipeline.infer_pg_type k (.vint n) = "VARCHAR(400)") ∧
      (∀ bs, Pipeline.infer_pg_type k (.vbytes bs) = "VARCHAR(400)")) := by
  refine ⟨fun v => rfl, fun v => rfl, fun v => rfl, fun k h1 h2 h3 => ?_⟩
  refine ⟨fun b => ?_, fun kvs => ?_, fun xs => ?_, ?_, fun s => ?_,
    fun n => ?_, fun bs => ?_⟩ <;>
    simp [Pipeline.infer_pg_type, h1, h2, h3]

/-- Witness for C5 at concrete column names and sample values. -/
theorem claim_C5_witness :
    Pipeline.infer_pg_type "protein_index" (.vstr "x") = "INTEGER NOT NULL" ∧
    Pipeline.infer_pg_type "sequence" (.vstr "MKT") = "VARCHAR(400)" ∧
    Pipeline.infer_pg_type "exons" (.vlist []) = "JSONB" ∧
    Pipeline.infer_pg_type "protein_coding" (.vbool true) = "BOOLEAN" :=
  ⟨claim_C5_infer_pg_type.1 _,
   (claim_C5_infer_pg_type.2.2.2 "sequence" (by decide) (by decide)
      (by decide)).2.2.2.2.1 "MKT",
   (claim_C5_infer_pg_type.2.2.2 "exons" (by decide) (by decide)
      (by decide)).2.2.1 [],
   (claim_C5_infer_pg_type.2.2.2 "protein_coding" (by decide) (by decide)
      (by decide)).1 true⟩

/-- C8: `insert_proteins_with_pdbs` reports the number of records attempted
— the length of its input — whatever the table already contained and
however many inserts the conflict policy skipped. -/
theorem claim_C8_insert_reports_attempted (oc : List String)
    (tbl : List Pipeline.Row) (data : List Record)
    (res : List Pipeline.Row × Nat)
    (h : Pipeline.insert_proteins_with_pdbs oc tbl data = some res) :
    res.2 = data.length := by
  unfold Pipeline.insert_proteins_with_pdbs at h
  cases hl : Pipeline.insertLoop oc tbl data 0 with
  | none => rw [hl] at h; cases h
  | some t => rw [hl] at h; cases h; rfl

/-- Witness for C8: inserting the two example records into an empty table
(and re-inserting one of them into the resulting table) reports 2 and 1. -/
theorem claim_C8_witness :
    ∃ res, Pipeline.insert_proteins_with_pdbs exCols [] [exA, exB] = some res ∧
      res.2 = 2 := by
  cases hres : Pipeline.insert_proteins_with_pdbs exCols [] [exA, exB] with
  | none => exact absurd hres (by decide)
  | some res =>
      exact ⟨res, rfl, claim_C8_insert_reports_attempted exCols [] [exA, exB]
        res hres⟩

/-- C2 (code bug): the encoder replaces a nested `bytes` value by the
base64 marker dict, but nothing on the read path inverts the marker — the
value a JSONB column yields on export is exactly `make_json_safe v`, so a
structured value containing raw bytes does not round trip: the marker dict
comes back instead of the bytes. On byte-free values the round trip is the
identity. -/
theorem claim_C2_marker_never_decoded :
    make_json_safe (.vlist [.vbytes [0]]) =
      .vlist [.vdict [("__type__", .vstr "bytes"),
                      ("encoding", .vstr "base64"),
                      ("data", .vstr "AA==")]] ∧
    Pipeline.storedVal (.vlist [.vbytes [0]]) ≠ .vlist [.vbytes [0]] ∧
    Pipeline.storedVal (.vlist [.vint 1]) = .vlist [.vint 1] := by
  refine ⟨by decide, by decide, by decide⟩

/-- C10: the checker's keyed checks index each collection by
`(gene_id, transcript_id)` keeping only the last record per key, so a
collection containing the same record twice compares equal (`True`) to the
collection containing it once, although their lengths differ. -/
theorem claim_C10_keyed_checks_ignore_duplicates :
    Checker.index_by_key [exA, exA2] =
      some [((.vstr "G1", .vstr "T1"), exA2)] ∧
    Checker.compare_proteins [exA, exA] [exA] = some true ∧
    Checker.compare_pkl_files [exA, exA] [exA] = some true ∧
    ([exA, exA] : List Record).length ≠ ([exA] : List Record).length := by
  refine ⟨by decide, by decide, by decide, by decide⟩

/-- C7 counterexample: on a row whose identifier array has two entries but
whose content array has one, the pipeline's own export raises no error and
silently truncates to the single complete pair. -/
theorem claim_C7_counterexample :
    Pipeline.export_table_to_pkl [mismatchedRow] ["gene_id", "pdb_files"] =
      [[("gene_id", .vstr "G1"),
        ("pdb_files", .vlist
          [.vdict [("pdb_id", .vstr "1ABC"), ("content", .vbytes [7])]])]] ∧
    mismatchedRow.pdb_ids.length = 2 ∧
    mismatchedRow.pdb_files.length = 1 := by
  refine ⟨by decide, by decide, by decide⟩

/-- C7 (amended): at write time the two PDB arrays are built from the same
subrecord list and always have equal length; a mismatched pair of arrays in
a retrieved row makes the filter script's `rows_to_pkl` fail (assertion,
`none`) rather than truncate — but the pipeline's own export truncates
silently (see the counterexample). -/
theorem claim_C7_arity (oc : List String) (idx : Nat) (e : Record)
    (row : Pipeline.Row) (rows : List Pipeline.Row) (cols : List String)
    (hrow : Pipeline.mkRow oc idx e = some row)
    (hbad : ∃ r ∈ rows, r.pdb_ids.length ≠ r.pdb_files.length) :
    row.pdb_ids.length = row.pdb_files.length ∧
    Filter.rows_to_pkl rows cols = none := by
  constructor
  · unfold Pipeline.mkRow at hrow
    cases hp : getPdbs (getDKV e "pdb_files" (.vlist [])) with
    | none => rw [hp] at hrow; cases hrow
    | some pdbs =>
        rw [hp] at hrow
        simp at hrow
        rw [← hrow]
        simp
  · induction rows with
    | nil => rcases hbad with ⟨r, hr, _⟩; cases hr
    | cons r rs ih =>
        unfold Filter.rows_to_pkl at ih ⊢
        rw [List.mapM_cons]
        rcases hbad with ⟨r0, hr0, hne⟩
        rcases List.mem_cons.mp hr0 with h1 | h2
        · subst h1
          rw [if_neg hne]
          rfl
        · have hrs := ih ⟨r0, h2, hne⟩
          rw [hrs]
          cases hfr : (if r.pdb_ids.length = r.pdb_files.length then
              some ((cols.map (fun col =>
                if col = "exons" then (col, Filter.pyOrEmptyList (r.getField col))
                else (col, r.getField col))) ++
                [("pdb_files", Value.vlist ((r.pdb_ids.zip r.pdb_files).map
                  (fun pc => Value.vdict
                    [("pdb_id", Value.vstr pc.1),
                     ("content", Value.vbytes pc.2)])))])
            else none) <;> simp

/-- Witness for C7 (amended): `exA`'s row has arrays of equal length 2, and
`rows_to_pkl` on the mismatched row fails. -/
theorem claim_C7_witness :
    exArow.pdb_ids.length = exArow.pdb_files.length ∧
    Filter.rows_to_pkl [mismatchedRow] ["gene_id"] = none :=
  claim_C7_arity exCols 0 exA exArow [mismatchedRow] ["gene_id"]
    (by decide) ⟨mismatchedRow, by decide, by decide⟩

/-- C3: a record's PDB subrecord list, split by `mkRow` into the parallel
identifier and content arrays, is reproduced exactly — same order, same
identifiers, same payload bytes — by the export's re-zip of those arrays. -/
theorem claim_C3_subrecord_roundtrip (oc : List String) (idx : Nat)
    (e : Record) (pdbs : List PdbFile) (row : Pipeline.Row)
    (ko : List String)
    (hp : getPdbs (getDKV e "pdb_files" (.vlist [])) = some pdbs)
    (hrow : Pipeline.mkRow oc idx e = some row)
    (hko : "pdb_files" ∈ ko) :
    (lookupKV (Pipeline.rowToEntry ko row) "pdb_files").bind getPdbs =
      some pdbs := by
  unfold Pipeline.mkRow at hrow
  rw [hp] at hrow
  simp at hrow
  rw [lookupKV_rowToEntry ko row _ hko]
  simp only [entryVal, if_pos rfl, Option.some_bind]
  rw [← hrow]
  show getPdbs (rezipVal _) = some pdbs
  unfold rezipVal
  simp only [List.zip_map', List.map_map]
  have : ((fun pc : String × List Nat => Value.vdict
      [("pdb_id", Value.vstr pc.1), ("content", Value.vbytes pc.2)]) ∘
      fun p : PdbFile => (p.pdb_id, p.content)) = pdbEntryVal := by
    funext p
    rfl
  rw [this]
  exact getPdbs_canonical pdbs

/-- Witness for C3 at `exA` (two subrecords). -/
theorem claim_C3_witness :
    (lookupKV (Pipeline.rowToEntry exKeyOrder exArow) "pdb_files").bind getPdbs
      = some exApdbs :=
  claim_C3_subrecord_roundtrip exCols 0 exA exApdbs exArow exKeyOrder
    (by decide) (by decide) (by decide)

/-- C9: on a record carrying all seven fingerprint fields, the pipeline's
`hash_protein` (which reads four of them with `.get` defaults) and the
checker's `hash_protein` (which subscripts them) compute the same digest. -/
theorem claim_C9_hashes_agree (p : Record)
    (h : ∀ k ∈ hashFieldNames, (lookupKV p k).isSome) :
    Pipeline.hash_protein p = Checker.hash_protein p := by
  rcases Option.isSome_iff_exists.mp (h "gene_id" (by decide)) with ⟨v1, h1⟩
  rcases Option.isSome_iff_exists.mp (h "transcript_id" (by decide)) with ⟨v2, h2⟩
  rcases Option.isSome_iff_exists.mp (h "sequence" (by decide)) with ⟨v3, h3⟩
  rcases Option.isSome_iff_exists.mp (h "exons" (by decide)) with ⟨v4, h4⟩
  rcases Option.isSome_iff_exists.mp (h "protein_coding" (by decide)) with ⟨v5, h5⟩
  rcases Option.isSome_iff_exists.mp (h "nmd" (by decide)) with ⟨v6, h6⟩
  rcases Option.isSome_iff_exists.mp (h "pdb_files" (by decide)) with ⟨v7, h7⟩
  unfold Pipeline.hash_protein Checker.hash_protein
  simp [getDKV, h1, h2, h3, h4, h5, h6, h7]

/-- Witness for C9 at `exA`. -/
theorem claim_C9_witness :
    Pipeline.hash_protein exA = Checker.hash_protein exA :=
  claim_C9_hashes_agree exA (by decide)

theorem checker_hash_shape (p : Record) (ch : List Chunk)
    (h : Checker.hash_protein p = some ch) :
    ∃ g t rest, lookupKV p "gene_id" = some (.vstr g) ∧
      lookupKV p "transcript_id" = some (.vstr t) ∧
      ch = Chunk.cstr g :: Chunk.cstr t :: rest := by
  unfold Checker.hash_protein at h
  cases h1 : lookupKV p "gene_id" with
  | none => rw [h1] at h; simp only [Option.bind_eq_bind, Option.some_bind, Option.none_bind, asStr] at h <;> cases h
  | some v1 =>
  rw [h1] at h
  cases v1 with
  | vstr g =>
    cases h2 : lookupKV p "transcript_id" with
    | none => rw [h2] at h; simp only [Option.bind_eq_bind, Option.some_bind, Option.none_bind, asStr] at h <;> cases h
    | some v2 =>
    rw [h2] at h
    cases v2 with
    | vstr t =>
      cases h3 : lookupKV p "sequence" with
      | none => rw [h3] at h; simp only [Option.bind_eq_bind, Option.some_bind, Option.none_bind, asStr] at h <;> cases h
      | some sv =>
      rw [h3] at h
      simp only [asStr, Option.some_bind, bind_assoc, pure_bind,
        Option.bind_eq_bind] at h
      cases h4 : seqOrEmpty sv with
      | none => rw [h4] at h; simp only [Option.bind_eq_bind, Option.some_bind, Option.none_bind, asStr] at h <;> cases h
      | some s =>
      rw [h4] at h
      simp only [Option.some_bind, Option.bind_eq_bind] at h
      cases h5 : lookupKV p "exons" with
      | none => rw [h5] at h; simp only [Option.bind_eq_bind, Option.some_bind, Option.none_bind, asStr] at h <;> cases h
      | some ex =>
      rw [h5] at h
      simp only [Option.some_bind, Option.bind_eq_bind] at h
      cases h6 : lookupKV p "protein_coding" with
      | none => rw [h6] at h; simp only [Option.bind_eq_bind, Option.some_bind, Option.none_bind, asStr] at h <;> cases h
      | some pc =>
      rw [h6] at h
      simp only [Option.some_bind, Option.bind_eq_bind] at h
      cases h7 : lookupKV p "nmd" with
      | none => rw [h7] at h; simp only [Option.bind_eq_bind, Option.some_bind, Option.none_bind, asStr] at h <;> cases h
      | some nm =>
      rw [h7] at h
      simp only [Option.some_bind, Option.bind_eq_bind] at h
      cases h8 : lookupKV p "pdb_files" with
      | none => rw [h8] at h; simp only [Option.bind_eq_bind, Option.some_bind, Option.none_bind, asStr] at h <;> cases h
      | some pv =>
      rw [h8] at h
      simp only [Option.some_bind, Option.bind_eq_bind] at h
      cases h9 : getPdbs pv with
      | none => rw [h9] at h; simp only [Option.bind_eq_bind, Option.some_bind, Option.none_bind, asStr] at h <;> cases h
      | some pdbs =>
      rw [h9] at h
      simp [asStr] at h
      exact ⟨g, t, _, rfl, rfl, h.symm⟩
    | vnull => simp only [Option.bind_eq_bind, Option.some_bind, Option.none_bind, asStr] at h <;> cases h
    | vbool b => simp only [Option.bind_eq_bind, Option.some_bind, Option.none_bind, asStr] at h <;> cases h
    | vint n => simp only [Option.bind_eq_bind, Option.some_bind, Option.none_bind, asStr] at h <;> cases h
    | vbytes bs => simp only [Option.bind_eq_bind, Option.some_bind, Option.none_bind, asStr] at h <;> cases h
    | vlist xs => simp only [Option.bind_eq_bind, Option.some_bind, Option.none_bind, asStr] at h <;> cases h
    | vdict kvs => simp only [Option.bind_eq_bind, Option.some_bind, Option.none_bind, asStr] at h <;> cases h
  | vnull => simp only [Option.bind_eq_bind, Option.some_bind, Option.none_bind, asStr] at h <;> cases h
  | vbool b => simp only [Option.bind_eq_bind, Option.some_bind, Option.none_bind, asStr] at h <;> cases h
  | vint n => simp only [Option.bind_eq_bind, Option.some_bind, Option.none_bind, asStr] at h <;> cases h
  | vbytes bs => simp only [Option.bind_eq_bind, Option.some_bind, Option.none_bind, asStr] at h <;> cases h
  | vlist xs => simp only [Option.bind_eq_bind, Option.some_bind, Option.none_bind, asStr] at h <;> cases h
  | vdict kvs => simp only [Option.bind_eq_bind, Option.some_bind, Option.none_bind, asStr] at h <;> cases h

theorem checker_hash_ne_of_key_ne (p q : Record)
    (hp : (Checker.hash_protein p).isSome)
    (hq : (Checker.hash_protein q).isSome)
    (hkey : lookupKV p "gene_id" ≠ lookupKV q "gene_id" ∨
            lookupKV p "transcript_id" ≠ lookupKV q "transcript_id") :
    Checker.hash_protein p ≠ Checker.hash_protein q := by
  rcases Option.isSome_iff_exists.mp hp with ⟨chp, hchp⟩
  rcases Option.isSome_iff_exists.mp hq with ⟨chq, hchq⟩
  rcases checker_hash_shape p chp hchp with ⟨g1, t1, r1, hg1, ht1, hsh1⟩
  rcases checker_hash_shape q chq hchq with ⟨g2, t2, r2, hg2, ht2, hsh2⟩
  intro heq
  rw [hchp, hchq] at heq
  cases heq
  rw [hsh1] at hsh2
  simp only [List.cons.injEq, Chunk.cstr.injEq] at hsh2
  rcases hkey with hne | hne
  · exact hne (by rw [hg1, hg2, hsh2.1])
  · exact hne (by rw [ht1, ht2, hsh2.2.1])

/-- C6: two collections that agree record-for-record except that the
records at two positions (with different identity keys) are swapped make
the ordered fingerprint check report failure, not success. -/
theorem claim_C6_swap_fails_fingerprint (d : List Record) (i j : Nat)
    (hi : i < d.length) (hj : j < d.length) (hij : i < j)
    (hall : ∀ r ∈ d, (Checker.hash_protein r).isSome)
    (hkey : lookupKV (d.get ⟨i, hi⟩) "gene_id" ≠
              lookupKV (d.get ⟨j, hj⟩) "gene_id" ∨
            lookupKV (d.get ⟨i, hi⟩) "transcript_id" ≠
              lookupKV (d.get ⟨j, hj⟩) "transcript_id") :
    Checker.proof_compare_pkl d
      ((d.set i (d.get ⟨j, hj⟩)).set j (d.get ⟨i, hi⟩)) = false := by
  have hne : i ≠ j := Nat.ne_of_lt hij
  set d2 : List Record := (d.set i (d.get ⟨j, hj⟩)).set j (d.get ⟨i, hi⟩)
    with hd2
  have hlen : d2.length = d.length := by simp [hd2]
  have hi2 : i < d2.length := by rw [hlen]; exact hi
  have hd2i : d2.get ⟨i, hi2⟩ = d.get ⟨j, hj⟩ := by
    simp only [hd2, List.get_eq_getElem]
    rw [List.getElem_set_ne (Ne.symm hne), List.getElem_set_self]
  unfold Checker.proof_compare_pkl
  rw [if_pos hlen.symm]
  apply List.all_eq_false.mpr
  have hzl : i < (d.zip d2).length := by
    rw [List.length_zip, hlen, Nat.min_self]
    exact hi
  refine ⟨(d.zip d2).get ⟨i, hzl⟩, List.get_mem _ _ _, ?_⟩
  have hfst : ((d.zip d2).get ⟨i, hzl⟩).1 = d.get ⟨i, hi⟩ := by
    simp only [List.get_eq_getElem, List.getElem_zip]
  have hsnd : ((d.zip d2).get ⟨i, hzl⟩).2 = d.get ⟨j, hj⟩ := by
    simp only [List.get_eq_getElem, List.getElem_zip]
    rw [← List.get_eq_getElem d2 ⟨i, hi2⟩]
    exact hd2i
  simp only [hfst, hsnd, decide_eq_true_eq]
  exact checker_hash_ne_of_key_ne _ _
    (hall _ (List.get_mem d i hi)) (hall _ (List.get_mem d j hj)) hkey

/-- Witness for C6: swapping the two example records makes the fingerprint
check fail. -/
theorem claim_C6_witness :
    Checker.proof_compare_pkl [exA, exB]
      ((([exA, exB] : List Record).set 0
          (([exA, exB] : List Record).get ⟨1, by decide⟩)).set 1
        (([exA, exB] : List Record).get ⟨0, by decide⟩)) = false :=
  claim_C6_swap_fails_fingerprint [exA, exB] 0 1 (by decide) (by decide)
    (by decide) (by decide) (Or.inr (by decide))

/-! ### Insert-loop lemmas for the idempotent-rerun and round-trip claims -/

theorem insertOne_mono (tbl : List Pipeline.Row) (r : Pipeline.Row)
    (tbl2 : List Pipeline.Row) (h : Pipeline.insertOne tbl r = some tbl2) :
    ∀ x ∈ tbl, x ∈ tbl2 := by
  unfold Pipeline.insertOne at h
  split at h
  · cases h
  · split at h
    · cases h; exact fun x hx => hx
    · cases h; exact fun x hx => List.mem_append_left _ hx

theorem insertOne_key_present (tbl : List Pipeline.Row) (r : Pipeline.Row)
    (tbl2 : List Pipeline.Row) (h : Pipeline.insertOne tbl r = some tbl2) :
    ∃ x ∈ tbl2, Pipeline.rowKey x = Pipeline.rowKey r := by
  unfold Pipeline.insertOne at h
  by_cases h1 : (Pipeline.rowKey r).1 = Value.vnull ∨
      (Pipeline.rowKey r).2 = Value.vnull
  · rw [if_pos h1] at h; cases h
  · rw [if_neg h1] at h
    by_cases h2 : tbl.any
        (fun x => decide (Pipeline.rowKey x = Pipeline.rowKey r)) = true
    · rw [if_pos h2] at h
      cases h
      rcases List.any_eq_true.mp h2 with ⟨x, hx, hxk⟩
      exact ⟨x, hx, of_decide_eq_true hxk⟩
    · rw [if_neg h2] at h
      cases h
      exact ⟨r, List.mem_append_right _ (List.mem_singleton.mpr rfl), rfl⟩

theorem insertOne_nonnull (tbl : List Pipeline.Row) (r : Pipeline.Row)
    (tbl2 : List Pipeline.Row) (h : Pipeline.insertOne tbl r = some tbl2) :
    ¬((Pipeline.rowKey r).1 = Value.vnull ∨
      (Pipeline.rowKey r).2 = Value.vnull) := by
  unfold Pipeline.insertOne at h
  split at h
  · cases h
  · assumption

theorem insertOne_skip (tbl : List Pipeline.Row) (r : Pipeline.Row)
    (hnn : ¬((Pipeline.rowKey r).1 = Value.vnull ∨
      (Pipeline.rowKey r).2 = Value.vnull))
    (hk : ∃ x ∈ tbl, Pipeline.rowKey x = Pipeline.rowKey r) :
    Pipeline.insertOne tbl r = some tbl := by
  unfold Pipeline.insertOne
  rw [if_neg hnn, if_pos]
  rcases hk with ⟨x, hx, hxk⟩
  exact List.any_eq_true.mpr ⟨x, hx, decide_eq_true hxk⟩

theorem insertLoop_mono (oc : List String) (data : List Record) :
    ∀ (idx : Nat) (tbl tbl2 : List Pipeline.Row),
    Pipeline.insertLoop oc tbl data idx = some tbl2 → ∀ x ∈ tbl, x ∈ tbl2 := by
  induction data with
  | nil =>
      intro idx tbl tbl2 h x hx
      unfold Pipeline.insertLoop at h
      cases h
      exact hx
  | cons e rest ih =>
      intro idx tbl tbl2 h x hx
      unfold Pipeline.insertLoop at h
      cases hr : Pipeline.mkRow oc idx e with
      | none => rw [hr] at h; cases h
      | some row =>
      rw [hr] at h
      simp only [Option.bind_eq_bind, Option.some_bind] at h
      cases ho : Pipeline.insertOne tbl row with
      | none => rw [ho] at h; cases h
      | some tblmid =>
      rw [ho] at h
      simp only [Option.some_bind] at h
      exact ih (idx + 1) tblmid tbl2 h x (insertOne_mono tbl row tblmid ho x hx)

/-- C4: re-running the whole insert loop with the same input against the
table it produced leaves the table — and hence the exported collection —
unchanged: every record's identity key is already present, so every insert
is skipped by `ON CONFLICT DO NOTHING`, without error, and the reported
count is unchanged. -/
theorem claim_C4_rerun_idempotent (oc : List String) (t0 : List Pipeline.Row)
    (data : List Record) (t1 : List Pipeline.Row) (n : Nat) (ko : List String)
    (h : Pipeline.insert_proteins_with_pdbs oc t0 data = some (t1, n)) :
    Pipeline.insert_proteins_with_pdbs oc t1 data = some (t1, n) ∧
    (Pipeline.insert_proteins_with_pdbs oc t1 data).map
        (fun p => Pipeline.export_table_to_pkl p.1 ko) =
      some (Pipeline.export_table_to_pkl t1 ko) := by
  have key : ∀ (d : List Record) (idx : Nat) (ta tb : List Pipeline.Row),
      Pipeline.insertLoop oc ta d idx = some tb →
      Pipeline.insertLoop oc tb d idx = some tb := by
    intro d
    induction d with
    | nil =>
        intro idx ta tb hl
        unfold Pipeline.insertLoop at hl
        cases hl
        rfl
    | cons e rest ih =>
        intro idx ta tb hl
        unfold Pipeline.insertLoop at hl ⊢
        cases hr : Pipeline.mkRow oc idx e with
        | none => rw [hr] at hl; cases hl
        | some row =>
        rw [hr] at hl
        simp only [Option.bind_eq_bind, Option.some_bind] at hl
        cases ho : Pipeline.insertOne ta row with
        | none => rw [ho] at hl; cases hl
        | some tamid =>
        rw [ho] at hl
        simp only [Option.some_bind] at hl
        rcases insertOne_key_present ta row tamid ho with ⟨x, hx, hxk⟩
        have hxb : x ∈ tb := insertLoop_mono oc rest (idx + 1) tamid tb hl x hx
        have hskip : Pipeline.insertOne tb row = some tb :=
          insertOne_skip tb row (insertOne_nonnull ta row tamid ho)
            ⟨x, hxb, hxk⟩
        simp only [Option.bind_eq_bind, Option.some_bind]
        rw [hskip]
        simp only [Option.some_bind]
        exact ih (idx + 1) tamid tb hl
  unfold Pipeline.insert_proteins_with_pdbs at h ⊢
  cases hl : Pipeline.insertLoop oc t0 data 0 with
  | none => rw [hl] at h; cases h
  | some t1' =>
  rw [hl] at h
  simp at h
  obtain ⟨he1, he2⟩ := h
  subst he1
  subst he2
  rw [key data 0 t0 t1' hl]
  exact ⟨rfl, rfl⟩

/-- Witness for C4: inserting the two example records into an empty table
and re-running the insert with the same input leaves the table unchanged. -/
theorem claim_C4_witness :
    ∃ p, Pipeline.insert_proteins_with_pdbs exCols [] [exA, exB] = some p ∧
      Pipeline.insert_proteins_with_pdbs exCols p.1 [exA, exB] = some p := by
  cases hp : Pipeline.insert_proteins_with_pdbs exCols [] [exA, exB] with
  | none => exact absurd hp (by decide)
  | some p =>
      exact ⟨p, rfl, (claim_C4_rerun_idempotent exCols [] [exA, exB] p.1 p.2
        exKeyOrder (by rw [hp])).1⟩

/-! ### Round-trip lemmas for the full-pipeline claim -/

/-- The detected non-PDB columns for a given canonical key order
(`[k for k in first_entry.keys() if k != "pdb_files"]`). -/
def ocOf (ko : List String) : List String :=
  ko.filter (fun k => k ≠ "pdb_files")

/-- The PDB subrecords of a record as the insert extracts them. -/
def pdbsOf (e : Record) : List PdbFile :=
  (getPdbs (getDKV e "pdb_files" (.vlist []))).getD []

/-- The row the insert loop writes for record `e` at position `idx`. -/
def rowOf (oc : List String) (idx : Nat) (e : Record) : Pipeline.Row :=
  { protein_index := idx,
    fields := oc.map (fun k => (k, Pipeline.storedVal (getDKV e k .vnull))),
    pdb_ids := (pdbsOf e).map (fun p => p.pdb_id),
    pdb_files := (pdbsOf e).map (fun p => p.content) }

/-- The rows the insert loop writes for a record list starting at a given
position. -/
def rowsOf (oc : List String) : List Record → Nat → List Pipeline.Row
  | [], _ => []
  | e :: rest, idx => rowOf oc idx e :: rowsOf oc rest (idx + 1)

/-- The identity key of a record (`(gene_id, transcript_id)`, NULL when
missing). -/
def eKey (e : Record) : Value × Value :=
  (getDKV e "gene_id" .vnull, getDKV e "transcript_id" .vnull)

theorem mkRow_eq_rowOf (oc : List String) (idx : Nat) (e : Record)
    (h : pdbField e = true) :
    Pipeline.mkRow oc idx e = some (rowOf oc idx e) := by
  rcases pdbField_spec e h with ⟨pv, pdbs, hpv, hp⟩
  have hgd : getDKV e "pdb_files" (.vlist []) = pv := by
    unfold getDKV
    rw [hpv]
    rfl
  have hpo : pdbsOf e = pdbs := by
    unfold pdbsOf
    rw [hgd, hp]
    rfl
  unfold Pipeline.mkRow
  rw [hgd, hp]
  simp only [Option.bind_eq_bind, Option.some_bind]
  rw [rowOf, hpo]

theorem getDKV_keyed_map (g : String → Value) (ks : List String) (k : String)
    (h : k ∈ ks) : getDKV (ks.map (fun x => (x, g x))) k .vnull = g k := by
  unfold getDKV
  rw [lookupKV_keyed_map g ks k h]
  rfl

theorem getField_rowOf (oc : List String) (idx : Nat) (e : Record)
    (k : String) (hk : k ∈ oc) :
    (rowOf oc idx e).getField k = Pipeline.storedVal (getDKV e k .vnull) := by
  unfold Pipeline.Row.getField
  exact getDKV_keyed_map (fun k => Pipeline.storedVal (getDKV e k .vnull))
    oc k hk

theorem rowKey_rowOf (oc : List String) (idx : Nat) (e : Record)
    (hg : "gene_id" ∈ oc) (ht : "transcript_id" ∈ oc)
    (hsg : isStrField e "gene_id" = true)
    (hst : isStrField e "transcript_id" = true) :
    Pipeline.rowKey (rowOf oc idx e) = eKey e ∧
    (eKey e).1 ≠ Value.vnull ∧ (eKey e).2 ≠ Value.vnull := by
  rcases isStrField_spec e "gene_id" hsg with ⟨g, hgl⟩
  rcases isStrField_spec e "transcript_id" hst with ⟨t, htl⟩
  have h1 : getDKV e "gene_id" .vnull = .vstr g := by
    unfold getDKV; rw [hgl]; rfl
  have h2 : getDKV e "transcript_id" .vnull = .vstr t := by
    unfold getDKV; rw [htl]; rfl
  unfold Pipeline.rowKey eKey
  rw [getField_rowOf oc idx e _ hg, getField_rowOf oc idx e _ ht, h1, h2]
  exact ⟨rfl, by simp, by simp⟩

theorem getPdbs_rezip_rowOf (oc : List String) (idx : Nat) (e : Record) :
    getPdbs (rezipVal (rowOf oc idx e)) = some (pdbsOf e) := by
  unfold rezipVal rowOf
  simp only [List.zip_map', List.map_map]
  have : ((fun pc : String × List Nat => Value.vdict
      [("pdb_id", Value.vstr pc.1), ("content", Value.vbytes pc.2)]) ∘
      fun p : PdbFile => (p.pdb_id, p.content)) = pdbEntryVal := by
    funext p
    rfl
  rw [this]
  exact getPdbs_canonical (pdbsOf e)

theorem rowsOf_length (oc : List String) :
    ∀ (d : List Record) (idx : Nat), (rowsOf oc d idx).length = d.length := by
  intro d
  induction d with
  | nil => intro idx; rfl
  | cons e rest ih => intro idx; simp [rowsOf, ih]

theorem rowsOf_index_le (oc : List String) :
    ∀ (d : List Record) (idx : Nat) (x : Pipeline.Row),
      x ∈ rowsOf oc d idx → idx ≤ x.protein_index := by
  intro d
  induction d with
  | nil => intro idx x hx; cases hx
  | cons e rest ih =>
      intro idx x hx
      rcases List.mem_cons.mp hx with h1 | h2
      · subst h1; exact Nat.le_refl idx
      · exact Nat.le_of_succ_le (ih (idx + 1) x h2)

theorem insertRowSorted_front (r : Pipeline.Row) (l : List Pipeline.Row)
    (h : ∀ x ∈ l, r.protein_index < x.protein_index) :
    Pipeline.insertRowSorted r l = r :: l := by
  cases l with
  | nil => rfl
  | cons x xs =>
      unfold Pipeline.insertRowSorted
      rw [if_neg]
      exact Nat.not_le.mpr (h x (List.mem_cons_self x xs))

theorem sortByIndex_rowsOf (oc : List String) :
    ∀ (d : List Record) (idx : Nat),
      Pipeline.sortByIndex (rowsOf oc d idx) = rowsOf oc d idx := by
  intro d
  induction d with
  | nil => intro idx; rfl
  | cons e rest ih =>
      intro idx
      show Pipeline.sortByIndex (rowOf oc idx e :: rowsOf oc rest (idx + 1))
        = _
      unfold Pipeline.sortByIndex
      rw [ih (idx + 1)]
      exact insertRowSorted_front _ _ (fun x hx =>
        Nat.lt_of_lt_of_le (Nat.lt_succ_self idx)
          (rowsOf_index_le oc rest (idx + 1) x hx))

theorem pipeline_hash_eval (p : Record) (g t : String) (sv : Value)
    (s : String) (pv : Value) (pdbs : List PdbFile)
    (hg : lookupKV p "gene_id" = some (.vstr g))
    (ht : lookupKV p "transcript_id" = some (.vstr t))
    (hsv : lookupKV p "sequence" = some sv)
    (hs : seqOrEmpty sv = some s)
    (hpv : getDKV p "pdb_files" (.vlist []) = pv)
    (hp : getPdbs pv = some pdbs) :
    Pipeline.hash_protein p = some
      ([.cstr g, .cstr t, .cstr s,
        .cpickle (getDKV p "exons" (.vlist [])),
        .cpystr (getDKV p "protein_coding" (.vbool false)),
        .cpystr (getDKV p "nmd" (.vbool false))] ++
       pdbs.flatMap (fun f => [.cstr f.pdb_id, .cbytes f.content])) := by
  unfold Pipeline.hash_protein
  rw [hg, ht, hsv, hpv, hp]
  simp only [Option.bind_eq_bind, Option.some_bind, asStr]
  rw [hs]
  simp only [Option.some_bind]

theorem hash_roundtrip_entry (ko : List String) (idx : Nat) (e : Record)
    (hko : ∀ k ∈ hashFieldNames, k ∈ ko)
    (hsafe : HashFieldsSafe e = true) :
    Pipeline.hash_protein (Pipeline.rowToEntry ko (rowOf (ocOf ko) idx e)) =
      Pipeline.hash_protein e ∧ (Pipeline.hash_protein e).isSome := by
  unfold HashFieldsSafe at hsafe
  simp only [Bool.and_eq_true] at hsafe
  obtain ⟨⟨⟨⟨⟨⟨hg, ht⟩, hs⟩, hex⟩, hpc⟩, hnm⟩, hpd⟩ := hsafe
  rcases isStrField_spec e "gene_id" hg with ⟨g, hgl⟩
  rcases isStrField_spec e "transcript_id" ht with ⟨t, htl⟩
  rcases seqField_spec e hs with ⟨sv, hsvl, hsvs⟩
  rcases Option.isSome_iff_exists.mp hsvs with ⟨s, hseq⟩
  rcases byteFreeField_spec e "exons" hex with ⟨ex, hexl, hexbf⟩
  rcases byteFreeField_spec e "protein_coding" hpc with ⟨pc, hpcl, hpcbf⟩
  rcases byteFreeField_spec e "nmd" hnm with ⟨nm, hnml, hnmbf⟩
  rcases pdbField_spec e hpd with ⟨pv, pdbs, hpvl, hpl⟩
  have hgde : getDKV e "pdb_files" (.vlist []) = pv := by
    unfold getDKV; rw [hpvl]; rfl
  have he_ex : getDKV e "exons" (.vlist []) = ex := by
    unfold getDKV; rw [hexl]; rfl
  have he_pc : getDKV e "protein_coding" (.vbool false) = pc := by
    unfold getDKV; rw [hpcl]; rfl
  have he_nm : getDKV e "nmd" (.vbool false) = nm := by
    unfold getDKV; rw [hnml]; rfl
  have hhe := pipeline_hash_eval e g t sv s pv pdbs hgl htl hsvl hseq hgde hpl
  have mem6 : ∀ k, k ∈ hashFieldNames → k ≠ "pdb_files" → k ∈ ocOf ko :=
    fun k hk hne => List.mem_filter.mpr ⟨hko k hk, by simpa using hne⟩
  have hlk : ∀ k, k ∈ hashFieldNames → k ≠ "pdb_files" →
      lookupKV (Pipeline.rowToEntry ko (rowOf (ocOf ko) idx e)) k =
        some (Pipeline.storedVal (getDKV e k .vnull)) := by
    intro k hk hne
    rw [lookupKV_rowToEntry ko _ k (hko k hk)]
    rw [entryVal, if_neg hne, getField_rowOf _ idx e k (mem6 k hk hne)]
  have hgre : lookupKV (Pipeline.rowToEntry ko (rowOf (ocOf ko) idx e))
      "gene_id" = some (.vstr g) := by
    rw [hlk "gene_id" (by decide) (by decide)]
    have hh : getDKV e "gene_id" .vnull = .vstr g := by
      unfold getDKV; rw [hgl]; rfl
    rw [hh]
    rfl
  have htre : lookupKV (Pipeline.rowToEntry ko (rowOf (ocOf ko) idx e))
      "transcript_id" = some (.vstr t) := by
    rw [hlk "transcript_id" (by decide) (by decide)]
    have hh : getDKV e "transcript_id" .vnull = .vstr t := by
      unfold getDKV; rw [htl]; rfl
    rw [hh]
    rfl
  have hsre : lookupKV (Pipeline.rowToEntry ko (rowOf (ocOf ko) idx e))
      "sequence" = some sv := by
    rw [hlk "sequence" (by decide) (by decide)]
    have hh : getDKV e "sequence" .vnull = sv := by
      unfold getDKV; rw [hsvl]; rfl
    rw [hh, storedVal_of_seqOrEmpty sv hsvs]
  have hexre : getDKV (Pipeline.rowToEntry ko (rowOf (ocOf ko) idx e))
      "exons" (.vlist []) = ex := by
    unfold getDKV
    rw [hlk "exons" (by decide) (by decide)]
    have hh : getDKV e "exons" .vnull = ex := by
      unfold getDKV; rw [hexl]; rfl
    rw [hh, storedVal_of_byteFree ex hexbf]
    rfl
  have hpcre : getDKV (Pipeline.rowToEntry ko (rowOf (ocOf ko) idx e))
      "protein_coding" (.vbool false) = pc := by
    unfold getDKV
    rw [hlk "protein_coding" (by decide) (by decide)]
    have hh : getDKV e "protein_coding" .vnull = pc := by
      unfold getDKV; rw [hpcl]; rfl
    rw [hh, storedVal_of_byteFree pc hpcbf]
    rfl
  have hnmre : getDKV (Pipeline.rowToEntry ko (rowOf (ocOf ko) idx e))
      "nmd" (.vbool false) = nm := by
    unfold getDKV
    rw [hlk "nmd" (by decide) (by decide)]
    have hh : getDKV e "nmd" .vnull = nm := by
      unfold getDKV; rw [hnml]; rfl
    rw [hh, storedVal_of_byteFree nm hnmbf]
    rfl
  have hpdre : getDKV (Pipeline.rowToEntry ko (rowOf (ocOf ko) idx e))
      "pdb_files" (.vlist []) = rezipVal (rowOf (ocOf ko) idx e) := by
    unfold getDKV
    rw [lookupKV_rowToEntry ko _ _ (hko "pdb_files" (by decide))]
    rw [entryVal, if_pos rfl]
    rfl
  have hpre : getPdbs (rezipVal (rowOf (ocOf ko) idx e)) = some pdbs := by
    rw [getPdbs_rezip_rowOf]
    have hh : pdbsOf e = pdbs := by
      unfold pdbsOf; rw [hgde, hpl]; rfl
    rw [hh]
  have hhre := pipeline_hash_eval (Pipeline.rowToEntry ko (rowOf (ocOf ko) idx e))
    g t sv s (rezipVal (rowOf (ocOf ko) idx e)) pdbs hgre htre hsre hseq
    hpdre hpre
  constructor
  · rw [hhe, hhre, hexre, hpcre, hnmre, he_ex, he_pc, he_nm]
  · rw [hhe]
    rfl

theorem insertLoop_fresh (oc : List String) (d : List Record) :
    ∀ (idx : Nat) (t : List Pipeline.Row),
    (∀ e ∈ d, HashFieldsSafe e = true) →
    "gene_id" ∈ oc → "transcript_id" ∈ oc →
    (d.map eKey).Nodup →
    (∀ e ∈ d, ∀ x ∈ t, Pipeline.rowKey x ≠ eKey e) →
    Pipeline.insertLoop oc t d idx = some (t ++ rowsOf oc d idx) := by
  induction d with
  | nil =>
      intro idx t _ _ _ _ _
      unfold Pipeline.insertLoop
      rw [rowsOf, List.append_nil]
  | cons e rest ih =>
      intro idx t hsafe hg ht hnd hfresh
      have hse := hsafe e (List.mem_cons_self e rest)
      have hse' := hse
      unfold HashFieldsSafe at hse'
      simp only [Bool.and_eq_true] at hse'
      obtain ⟨⟨⟨⟨⟨⟨hg1, ht1⟩, _⟩, _⟩, _⟩, _⟩, hpd1⟩ := hse'
      unfold Pipeline.insertLoop
      rw [mkRow_eq_rowOf oc idx e hpd1]
      simp only [Option.bind_eq_bind, Option.some_bind]
      rcases rowKey_rowOf oc idx e hg ht hg1 ht1 with ⟨hrk, hn1, hn2⟩
      have hnd' : eKey e ∉ rest.map eKey ∧ (rest.map eKey).Nodup :=
        List.nodup_cons.mp (by simpa [List.map_cons] using hnd)
      have hio : Pipeline.insertOne t (rowOf oc idx e) =
          some (t ++ [rowOf oc idx e]) := by
        unfold Pipeline.insertOne
        rw [hrk, if_neg (not_or.mpr ⟨hn1, hn2⟩), if_neg]
        simp only [List.any_eq_true, decide_eq_true_eq, not_exists]
        rintro x ⟨hx, hxe⟩
        exact hfresh e (List.mem_cons_self e rest) x hx hxe
      rw [hio]
      simp only [Option.some_bind]
      have hrest := ih (idx + 1) (t ++ [rowOf oc idx e])
        (fun e' he' => hsafe e' (List.mem_cons_of_mem e he')) hg ht hnd'.2
        (by
          intro e' he' x hx
          rcases List.mem_append.mp hx with hx1 | hx2
          · exact hfresh e' (List.mem_cons_of_mem e he') x hx1
          · rw [List.mem_singleton.mp hx2, hrk]
            intro hcontra
            exact hnd'.1 (hcontra ▸ List.mem_map_of_mem eKey he'))
      rw [hrest]
      rw [List.append_assoc]
      rfl

theorem zip_hash_all (ko : List String)
    (hko : ∀ k ∈ hashFieldNames, k ∈ ko) (d : List Record) : ∀ (idx : Nat),
    (∀ e ∈ d, HashFieldsSafe e = true) →
    (d.zip ((rowsOf (ocOf ko) d idx).map (Pipeline.rowToEntry ko))).all
      (fun pq => decide (Pipeline.hash_protein pq.1 =
        Pipeline.hash_protein pq.2)) = true := by
  induction d with
  | nil => intro idx _; rfl
  | cons e rest ih =>
      intro idx hsafe
      show ((e, Pipeline.rowToEntry ko (rowOf (ocOf ko) idx e)) ::
        (rest.zip ((rowsOf (ocOf ko) rest (idx + 1)).map
          (Pipeline.rowToEntry ko)))).all _ = true
      rw [List.all_cons]
      refine (Bool.and_eq_true _ _).mpr
        ⟨?_, ih (idx + 1) (fun e' he' => hsafe e' (List.mem_cons_of_mem e he'))⟩
      have hrt := hash_roundtrip_entry ko idx e hko
        (hsafe e (List.mem_cons_self e rest))
      simp only [hrt.1, decide_eq_true_eq]

/-- C1 (amended): for every input collection whose records carry
well-formed, byte-free fingerprint fields and pairwise-distinct
`(gene_id, transcript_id)` identity keys, persisting into an empty table
and retrieving ordered by `protein_index` yields a collection of the same
length in the same position-for-position order, and the ordered fingerprint
check passes. -/
theorem claim_C1_roundtrip (ko : List String) (data : List Record)
    (hko : ∀ k ∈ hashFieldNames, k ∈ ko)
    (hgood : ∀ e ∈ data, HashFieldsSafe e = true)
    (hkeys : (data.map eKey).Nodup) :
    ∃ tbl, Pipeline.insert_proteins_with_pdbs (ocOf ko) [] data =
        some (tbl, data.length) ∧
      (Pipeline.export_table_to_pkl tbl ko).length = data.length ∧
      Pipeline.proof_compare_pkl data
        (Pipeline.export_table_to_pkl tbl ko) = true := by
  have hg : "gene_id" ∈ ocOf ko :=
    List.mem_filter.mpr ⟨hko _ (by decide), by decide⟩
  have ht : "transcript_id" ∈ ocOf ko :=
    List.mem_filter.mpr ⟨hko _ (by decide), by decide⟩
  have hloop := insertLoop_fresh (ocOf ko) data 0 [] hgood hg ht hkeys
    (by intro e he x hx; cases hx)
  rw [List.nil_append] at hloop
  refine ⟨rowsOf (ocOf ko) data 0, ?_, ?_, ?_⟩
  · unfold Pipeline.insert_proteins_with_pdbs
    rw [hloop]
    rfl
  · unfold Pipeline.export_table_to_pkl
    rw [sortByIndex_rowsOf]
    simp [rowsOf_length]
  · unfold Pipeline.export_table_to_pkl Pipeline.proof_compare_pkl
    rw [sortByIndex_rowsOf]
    rw [if_pos (by simp [rowsOf_length])]
    exact zip_hash_all ko hko data 0 hgood

/-- C1 counterexample: on the input `[exA, exA]` (a duplicated identity
key), the second insert is skipped, the retrieved collection has length 1
instead of 2, and the fingerprint check fails. -/
theorem claim_C1_counterexample :
    (Pipeline.insert_proteins_with_pdbs exCols [] [exA, exA]).map
        (fun p => ((Pipeline.export_table_to_pkl p.1 exKeyOrder).length,
          Pipeline.proof_compare_pkl [exA, exA]
            (Pipeline.export_table_to_pkl p.1 exKeyOrder))) =
      some (1, false) ∧
    ([exA, exA] : List Record).length = 2 := by
  refine ⟨by decide, by decide⟩

/-- Witness for C1 (amended) at the two example records. -/
theorem claim_C1_witness :
    ∃ tbl, Pipeline.insert_proteins_with_pdbs (ocOf exKeyOrder) []
        [exA, exB] = some (tbl, 2) ∧
      (Pipeline.export_table_to_pkl tbl exKeyOrder).length = 2 ∧
      Pipeline.proof_compare_pkl [exA, exB]
        (Pipeline.export_table_to_pkl tbl exKeyOrder) = true :=
  claim_C1_roundtrip exKeyOrder [exA, exB] (by decide) (by decide) (by decide)

end PDB
